import Mathlib

/-!
Verification of the Go backend in `src/main.go` together with the
resource-access component it dispatches to.

The router (`apiTestHandler`) and the CORS middleware (`corsMiddleware`)
are embedded directly from `src/main.go`.  The resource-access component
(`backend/Controllers`, referenced by `main.go` but whose source is not
part of this repository snapshot) is modelled from the specification:
those definitions carry a doc comment starting `Modelled from the spec:`.
-/

/-! ## The router, from `src/main.go` -/

/-- An incoming HTTP request as far as the router inspects it:
its method and its URL path. -/
structure Request where
  method : String
  path : String
deriving DecidableEq, Repr

/-- The controller action a routed request is dispatched to
(`controller.GetAll`, `controller.Create`, `controller.GetById`,
`controller.Update`, `controller.Delete` in `main.go`). -/
inductive ControllerAction where
  | getAll : ControllerAction
  | create : ControllerAction
  | getById (id : Int) : ControllerAction
  | update (id : Int) : ControllerAction
  | delete (id : Int) : ControllerAction
deriving DecidableEq, Repr

/-- The outcome of the router on a request: either it invokes a
controller action, or it writes an error response itself
(`http.Error(w, msg, status)` / `http.NotFound`). -/
inductive RouteResult where
  | invoke (a : ControllerAction) : RouteResult
  | err (status : Nat) (msg : String) : RouteResult
deriving DecidableEq, Repr

/-- One decimal digit, as in Go's `strconv` lower-level parsing:
`'0' <= c && c <= '9'` yields `c - '0'`, anything else fails. -/
def digitVal (c : Char) : Option Nat :=
  if '0' ≤ c ∧ c ≤ '9' then some (c.toNat - '0'.toNat) else none

/-- Accumulate decimal digits left to right, failing on any non-digit,
as `strconv.ParseUint` does in base 10. -/
def parseDecDigits : List Char → Nat → Option Nat
  | [], acc => some acc
  | c :: cs, acc =>
    match digitVal c with
    | some d => parseDecDigits cs (acc * 10 + d)
    | none => none

/-- Embedding of Go's `strconv.Atoi` (`strconv.ParseInt(s, 10, 0)` with
64-bit `int`): an optional single leading `+` or `-` sign, then a
non-empty run of decimal digits, with the signed result required to fit
in 64 bits.  Every failure (`empty string, stray characters, range
overflow`) is `none`, matching `err != nil` in Go. -/
def atoi (s : String) : Option Int :=
  match s.data with
  | [] => none
  | c :: cs =>
    let signDigits : Bool × List Char :=
      if c = '+' then (false, cs)
      else if c = '-' then (true, cs)
      else (false, c :: cs)
    match signDigits.2 with
    | [] => none
    | ds =>
      match parseDecDigits ds 0 with
      | none => none
      | some n =>
        let v : Int := if signDigits.1 then -(n : Int) else (n : Int)
        if v < -(2 ^ 63) ∨ 2 ^ 63 - 1 < v then none else some v

/-- Embedding of `apiTestHandler` from `src/main.go` (lines 280-332):
exact match on the collection path (with trailing-slash normalization),
then the `/api/test/` id subtree with `strconv.Atoi` parsing of the id
segment, method dispatch mirroring the Go `switch` statements, and
`http.NotFound` for everything else.  `strings.HasPrefix` and
`strings.TrimPrefix` are rendered on the character list of the path. -/
def apiTestHandler (r : Request) : RouteResult :=
  let path := r.path
  if path = "/api/test" ∨ path = "/api/test/" then
    if r.method = "GET" then .invoke .getAll
    else if r.method = "POST" then .invoke .create
    else .err 405 "Method not allowed"
  else if "/api/test/".data.isPrefixOf path.data then
    let idStr : String := ⟨path.data.drop "/api/test/".data.length⟩
    if idStr = "" then
      if r.method = "GET" then .invoke .getAll
      else if r.method = "POST" then .invoke .create
      else .err 405 "Method not allowed"
    else
      match atoi idStr with
      | none => .err 400 "Invalid ID"
      | some id =>
        if r.method = "GET" then .invoke (.getById id)
        else if r.method = "PUT" then .invoke (.update id)
        else if r.method = "DELETE" then .invoke (.delete id)
        else .err 405 "Method not allowed"
  else .err 404 "404 page not found"

/-- What the server as a whole answers: either the CORS middleware wrote
the response itself, or the wrapped handler was invoked and produced a
`RouteResult`. -/
inductive ServerResponse where
  | handled (status : Nat) : ServerResponse
  | routed (r : RouteResult) : ServerResponse
deriving DecidableEq, Repr

/-- Embedding of `corsMiddleware` from `src/main.go` (lines 26-39): after
setting the CORS headers (not modelled, they carry no control flow), an
`OPTIONS` request is answered with `http.StatusOK` and the wrapped
handler is never called; any other request is passed to the wrapped
handler. -/
def corsMiddleware (next : Request → RouteResult) (r : Request) : ServerResponse :=
  if r.method = "OPTIONS" then .handled 200
  else .routed (next r)

/-! ## The resource-access component, modelled from the spec -/

/-- Modelled from the spec: the stored "Test Project" entity
(`backend/Controllers` and its model are not under `src/`).  Per spec §3
it has an integer identifier and a name; the name is kept as
`Option String` so that the spec §3 invariant "every stored record has a
non-null name" is expressible: `none` stands for SQL `NULL` in the
backing column, `some n` for the string `n`. -/
structure TestProjects where
  id : Int
  name : Option String
deriving DecidableEq, Repr

/-- Modelled from the spec: the state of the backing table, i.e. the
stored records, together with the server-side sequence from which
identifiers are generated (spec §3: "integer identifier
(server-generated, unique, immutable after creation)"). -/
structure Store where
  records : List TestProjects
  nextId : Int
deriving DecidableEq, Repr

/-- Modelled from the spec: list-all (`spec §4.2: "list-all (returns all
records, order unspecified unless otherwise defined)"`). Status 200 with
every stored record. -/
def TestController.GetAll (s : Store) : Nat × List TestProjects :=
  (200, s.records)

/-- Modelled from the spec: get-by-id (`spec §4.2: "get-by-id (returns
record or a not-found signal)"`; spec §7: resource absent is 404). -/
def TestController.GetById (s : Store) (id : Int) : Nat × Option TestProjects :=
  match s.records.find? (fun r => r.id == id) with
  | some r => (200, some r)
  | none => (404, none)

/-- Modelled from the spec: create (`spec §4.2: "create (validates
required name, inserts, returns generated identifier)"`; spec §7:
missing required field is 400; the OpenAPI document in `main.go` gives
201 for the created record).  A missing JSON name field decodes to the
empty string in Go, so empty and missing coincide. -/
def TestController.Create (s : Store) (name : String) :
    (Nat × Option TestProjects) × Store :=
  if name = "" then ((400, none), s)
  else
    let newRec : TestProjects := ⟨s.nextId, some name⟩
    ((201, some newRec), ⟨s.records ++ [newRec], s.nextId + 1⟩)

/-- Modelled from the spec: update (`spec §4.2: "update (writes if
record exists, otherwise not-found)"`).  The single UPDATE statement
replaces the name of the matching row and touches nothing else. -/
def TestController.Update (s : Store) (id : Int) (name : String) :
    Nat × Store :=
  if s.records.any (fun r => r.id == id) then
    (200,
     ⟨s.records.map (fun r => if r.id == id then ⟨r.id, some name⟩ else r),
      s.nextId⟩)
  else (404, s)

/-- Modelled from the spec: delete (`spec §4.2: "delete (removes if
exists, otherwise not-found)"`).  The single DELETE statement removes
the matching row. -/
def TestController.Delete (s : Store) (id : Int) : Nat × Store :=
  if s.records.any (fun r => r.id == id) then
    (200, ⟨s.records.filter (fun r => !(r.id == id)), s.nextId⟩)
  else (404, s)

/-- The spec §3 invariant: every stored record has a non-null name. -/
@[reducible] def NamesNonNull (s : Store) : Prop :=
  ∀ r ∈ s.records, r.name ≠ none

/-- Freshness of the identifier sequence: every stored identifier is
below the next one the sequence will hand out.  This is the standing
property of a server-generated sequence (spec §3). -/
@[reducible] def IdsFresh (s : Store) : Prop :=
  ∀ r ∈ s.records, r.id < s.nextId

/-! ## Helper lemmas about the router -/

/-- On the empty string `strconv.Atoi` fails. -/
lemma atoi_empty : atoi "" = none := rfl

/-- A path `/api/test/{seg}` is never the bare collection path. -/
lemma idSegPath_ne_base (seg : String) : "/api/test/" ++ seg ≠ "/api/test" := by
  intro h
  have h2 := congrArg String.length h
  rw [String.length_append] at h2
  have hb : ("/api/test/" : String).length = 10 := rfl
  have hc : ("/api/test" : String).length = 9 := rfl
  rw [hb, hc] at h2
  omega

/-- A path `/api/test/{seg}` with non-empty segment is not the
slash-terminated collection path. -/
lemma idSegPath_ne_slash (seg : String) (hseg : seg ≠ "") :
    "/api/test/" ++ seg ≠ "/api/test/" := by
  intro h
  apply hseg
  have h2 := congrArg String.length h
  rw [String.length_append] at h2
  have hlen : seg.length = 0 := by omega
  cases seg with
  | mk data =>
    cases data with
    | nil => rfl
    | cons c cs => simp at hlen

/-- The id-subtree test of the router succeeds on `/api/test/{seg}`. -/
lemma idSegPath_isPref (seg : String) :
    "/api/test/".data.isPrefixOf ("/api/test/" ++ seg).data = true := by
  rw [String.data_append]
  exact List.isPrefixOf_iff_prefix.mpr (List.prefix_append _ _)

/-- Trimming the `/api/test/` portion of `/api/test/{seg}` leaves `seg`. -/
lemma idSegPath_drop (seg : String) :
    (String.mk (("/api/test/" ++ seg).data.drop "/api/test/".data.length)) = seg := by
  rw [String.data_append, List.drop_left]

/-- How the router treats any request on `/api/test/{seg}` with non-empty
segment: parse the segment with `strconv.Atoi`, answer 400 on failure, and
otherwise dispatch on the method. -/
lemma apiTestHandler_idSeg (m seg : String) (hseg : seg ≠ "") :
    apiTestHandler ⟨m, "/api/test/" ++ seg⟩ =
      match atoi seg with
      | none => .err 400 "Invalid ID"
      | some id =>
        if m = "GET" then .invoke (.getById id)
        else if m = "PUT" then .invoke (.update id)
        else if m = "DELETE" then .invoke (.delete id)
        else .err 405 "Method not allowed" := by
  have h1 : ¬("/api/test/" ++ seg = "/api/test" ∨ "/api/test/" ++ seg = "/api/test/") :=
    not_or.mpr ⟨idSegPath_ne_base seg, idSegPath_ne_slash seg hseg⟩
  simp only [apiTestHandler, if_neg h1, idSegPath_isPref seg, if_true,
    idSegPath_drop seg, if_neg hseg]

/-! ## Claims about the router -/

/-- C6: for every request whose path is `/api/test/{seg}` with a non-empty
segment that does not parse as an integer, the router responds with status
400 ("Invalid ID") and no controller action is invoked. -/
theorem c6_non_integer_segment_bad_request (m seg : String) (hseg : seg ≠ "")
    (hparse : atoi seg = none) :
    apiTestHandler ⟨m, "/api/test/" ++ seg⟩ = .err 400 "Invalid ID" ∧
    ∀ a : ControllerAction, apiTestHandler ⟨m, "/api/test/" ++ seg⟩ ≠ .invoke a := by
  have h := apiTestHandler_idSeg m seg hseg
  rw [hparse] at h
  exact ⟨h, fun a hcontra => by rw [h] at hcontra; exact RouteResult.noConfusion hcontra⟩

/-- Witness for C6 at the concrete request `GET /api/test/xyz`. -/
theorem c6_witness :
    apiTestHandler ⟨"GET", "/api/test/" ++ "xyz"⟩ = .err 400 "Invalid ID" ∧
    ∀ a : ControllerAction, apiTestHandler ⟨"GET", "/api/test/" ++ "xyz"⟩ ≠ .invoke a :=
  c6_non_integer_segment_bad_request "GET" "xyz" (by decide) (by decide)

/-- C7: for every request to a matched path with a method the router does
not recognize — any method other than GET/POST on `/api/test`, or other
than GET/PUT/DELETE on `/api/test/{id}` — the router responds with status
405 ("Method not allowed"). -/
theorem c7_unrecognized_method_405 (m seg : String) (id : Int) :
    (m ≠ "GET" → m ≠ "POST" →
      apiTestHandler ⟨m, "/api/test"⟩ = .err 405 "Method not allowed") ∧
    (m ≠ "GET" → m ≠ "PUT" → m ≠ "DELETE" → atoi seg = some id →
      apiTestHandler ⟨m, "/api/test/" ++ seg⟩ = .err 405 "Method not allowed") := by
  constructor
  · intro hm1 hm2
    simp only [apiTestHandler, true_or, if_true, if_neg hm1, if_neg hm2]
  · intro hm1 hm2 hm3 hparse
    have hseg : seg ≠ "" := by
      intro h
      rw [h, atoi_empty] at hparse
      exact Option.noConfusion hparse
    rw [apiTestHandler_idSeg m seg hseg, hparse]
    simp only [if_neg hm1, if_neg hm2, if_neg hm3]

/-- Witness for C7 at the concrete requests `PATCH /api/test` and
`PATCH /api/test/7`. -/
theorem c7_witness :
    apiTestHandler ⟨"PATCH", "/api/test"⟩ = .err 405 "Method not allowed" ∧
    apiTestHandler ⟨"PATCH", "/api/test/" ++ "7"⟩ = .err 405 "Method not allowed" :=
  ⟨(c7_unrecognized_method_405 "PATCH" "7" 7).1 (by decide) (by decide),
   (c7_unrecognized_method_405 "PATCH" "7" 7).2 (by decide) (by decide) (by decide)
     (by decide)⟩

/-- C8: the collection path with a trailing slash dispatches exactly like
`/api/test`: GET invokes list-all, POST invokes create, any other method
yields 405. -/
theorem c8_trailing_slash_normalized (m : String) :
    apiTestHandler ⟨m, "/api/test/"⟩ = apiTestHandler ⟨m, "/api/test"⟩ ∧
    apiTestHandler ⟨"GET", "/api/test/"⟩ = .invoke .getAll ∧
    apiTestHandler ⟨"POST", "/api/test/"⟩ = .invoke .create ∧
    (m ≠ "GET" → m ≠ "POST" →
      apiTestHandler ⟨m, "/api/test/"⟩ = .err 405 "Method not allowed") := by
  refine ⟨?_, by decide, by decide, ?_⟩
  · simp only [apiTestHandler, true_or, or_true, if_true]
  · intro hm1 hm2
    simp only [apiTestHandler, true_or, or_true, if_true, if_neg hm1, if_neg hm2]

/-- Witness for C8 at the concrete method `DELETE`. -/
theorem c8_witness :
    apiTestHandler ⟨"DELETE", "/api/test/"⟩ = apiTestHandler ⟨"DELETE", "/api/test"⟩ ∧
    apiTestHandler ⟨"DELETE", "/api/test/"⟩ = .err 405 "Method not allowed" :=
  ⟨(c8_trailing_slash_normalized "DELETE").1,
   (c8_trailing_slash_normalized "DELETE").2.2.2 (by decide) (by decide)⟩

/-- C9: every OPTIONS request, on any path and for any wrapped handler, is
answered with status 200 by the CORS middleware and the wrapped handler is
never invoked (the response does not depend on it). -/
theorem c9_options_short_circuit (next : Request → RouteResult) (p : String) :
    corsMiddleware next ⟨"OPTIONS", p⟩ = .handled 200 := rfl

/-- C10: every path `/api/test/{seg}` whose segment parses as an integer —
zero and negative integers included — is accepted by the router and
dispatched to get-by-id, update or delete with that integer. -/
theorem c10_integer_segment_dispatch (seg : String) (id : Int)
    (hparse : atoi seg = some id) :
    apiTestHandler ⟨"GET", "/api/test/" ++ seg⟩ = .invoke (.getById id) ∧
    apiTestHandler ⟨"PUT", "/api/test/" ++ seg⟩ = .invoke (.update id) ∧
    apiTestHandler ⟨"DELETE", "/api/test/" ++ seg⟩ = .invoke (.delete id) := by
  have hseg : seg ≠ "" := by
    intro h
    rw [h, atoi_empty] at hparse
    exact Option.noConfusion hparse
  refine ⟨?_, ?_, ?_⟩ <;>
    rw [apiTestHandler_idSeg _ seg hseg, hparse] <;> simp

/-- Witness for C10 at the concrete negative segment `-5`. -/
theorem c10_witness :
    apiTestHandler ⟨"GET", "/api/test/" ++ "-5"⟩ = .invoke (.getById (-5)) ∧
    apiTestHandler ⟨"PUT", "/api/test/" ++ "-5"⟩ = .invoke (.update (-5)) ∧
    apiTestHandler ⟨"DELETE", "/api/test/" ++ "-5"⟩ = .invoke (.delete (-5)) :=
  c10_integer_segment_dispatch "-5" (-5) (by decide)

/-! ## Helper lemmas about the resource-access component -/

/-- Replacing the name of the matching rows does not change any identifier. -/
lemma update_map_ids (l : List TestProjects) (id : Int) (name : String) :
    (l.map (fun r => if r.id == id then ⟨r.id, some name⟩ else r)).map
        TestProjects.id = l.map TestProjects.id := by
  rw [List.map_map]
  apply List.map_congr_left
  intro r hr
  by_cases h : r.id = id <;> simp [h]

/-- After the update write, looking up the updated identifier finds the
record with the new name (given some record had that identifier). -/
lemma find?_update_map (l : List TestProjects) (id : Int) (name : String)
    (hex : ∃ r ∈ l, r.id = id) :
    (l.map (fun r => if r.id == id then ⟨r.id, some name⟩ else r)).find?
      (fun r => r.id == id) = some ⟨id, some name⟩ := by
  induction l with
  | nil => simp at hex
  | cons a l ih =>
    by_cases ha : a.id = id
    · simp [List.find?_cons, ha]
    · obtain ⟨r, hr, hid⟩ := hex
      rcases List.mem_cons.mp hr with rfl | hr2
      · exact absurd hid ha
      · have hbeq : (a.id == id) = false := by simp [ha]
        simp only [List.map_cons, List.find?_cons, hbeq, Bool.false_eq_true,
          if_false]
        exact ih ⟨r, hr2, hid⟩

/-! ## Claims about the resource-access component -/

/-- C1: from any store whose identifier sequence is ahead of every stored
identifier, creating a record with a valid (non-empty) name returns 201
with a newly assigned identifier not previously in use, and a subsequent
get-by-id with that identifier returns a record carrying the submitted
name. -/
theorem c1_create_then_get (s : Store) (name : String)
    (hname : name ≠ "") (hfresh : IdsFresh s) :
    ∃ newId : Int,
      (TestController.Create s name).1 = (201, some ⟨newId, some name⟩) ∧
      (∀ r ∈ s.records, r.id ≠ newId) ∧
      TestController.GetById (TestController.Create s name).2 newId =
        (200, some ⟨newId, some name⟩) := by
  refine ⟨s.nextId, ?_, ?_, ?_⟩
  · simp [TestController.Create, hname]
  · intro r hr
    exact ne_of_lt (hfresh r hr)
  · have hnone : s.records.find? (fun r => r.id == s.nextId) = none := by
      rw [List.find?_eq_none]
      intro r hr
      simp only [beq_iff_eq]
      exact ne_of_lt (hfresh r hr)
    simp [TestController.Create, hname, TestController.GetById,
      List.find?_append, hnone, List.find?_cons]

/-- Witness for C1 on the concrete store `[(1, a)]` with next identifier 2,
creating the name `b`. -/
theorem c1_witness :
    ∃ newId : Int,
      (TestController.Create ⟨[⟨1, some "a"⟩], 2⟩ "b").1 =
        (201, some ⟨newId, some "b"⟩) ∧
      (∀ r ∈ (Store.mk [⟨1, some "a"⟩] 2).records, r.id ≠ newId) ∧
      TestController.GetById (TestController.Create ⟨[⟨1, some "a"⟩], 2⟩ "b").2
        newId = (200, some ⟨newId, some "b"⟩) :=
  c1_create_then_get ⟨[⟨1, some "a"⟩], 2⟩ "b" (by decide) (by decide)

/-- C2: creating with an empty (or missing, which decodes to empty) name
answers 400 and persists nothing: the store is unchanged. -/
theorem c2_create_empty_name_rejected (s : Store) :
    (TestController.Create s "").1.1 = 400 ∧ (TestController.Create s "").2 = s :=
  ⟨rfl, rfl⟩

/-- C3: updating a non-existent identifier answers 404 and leaves the
store unchanged; updating an existing identifier answers 200, after which
that identifier resolves to the submitted name, the multiset of stored
identifiers is unchanged (identifiers are immutable), and every record
with a different identifier is untouched in both directions. -/
theorem c3_update_semantics (s : Store) (id : Int) (name : String) :
    ((∀ r ∈ s.records, r.id ≠ id) → TestController.Update s id name = (404, s)) ∧
    ((∃ r ∈ s.records, r.id = id) →
      (TestController.Update s id name).1 = 200 ∧
      TestController.GetById (TestController.Update s id name).2 id =
        (200, some ⟨id, some name⟩) ∧
      (TestController.Update s id name).2.records.map TestProjects.id =
        s.records.map TestProjects.id ∧
      (∀ r ∈ s.records, r.id ≠ id →
        r ∈ (TestController.Update s id name).2.records) ∧
      (∀ r ∈ (TestController.Update s id name).2.records, r.id ≠ id →
        r ∈ s.records)) := by
  constructor
  · intro hno
    have hany : s.records.any (fun r => r.id == id) = false := by
      rw [List.any_eq_false]
      intro r hr
      simp only [beq_iff_eq]
      exact hno r hr
    simp [TestController.Update, hany]
  · intro hex
    obtain ⟨r0, hr0, hid0⟩ := hex
    have hany : s.records.any (fun r => r.id == id) = true := by
      rw [List.any_eq_true]
      exact ⟨r0, hr0, by simp [hid0]⟩
    have hrec : (TestController.Update s id name).2.records =
        s.records.map (fun r => if r.id == id then ⟨r.id, some name⟩ else r) := by
      simp [TestController.Update, hany]
    refine ⟨by simp [TestController.Update, hany], ?_, ?_, ?_, ?_⟩
    · rw [TestController.GetById, hrec,
        find?_update_map s.records id name ⟨r0, hr0, hid0⟩]
    · rw [hrec]
      exact update_map_ids s.records id name
    · intro r hr hrid
      rw [hrec]
      refine List.mem_map.mpr ⟨r, hr, ?_⟩
      simp [hrid]
    · intro r hr hrid
      rw [hrec] at hr
      obtain ⟨x, hx, hfx⟩ := List.mem_map.mp hr
      by_cases hxid : x.id = id
      · exfalso
        apply hrid
        rw [← hfx]
        simp [hxid]
      · rwa [← hfx, if_neg (by simpa using hxid)]

/-- Witness for C3 on the concrete store `[(1, a), (2, b)]`: updating
identifier 9 is a 404 no-op, and after updating identifier 1 to `z`,
get-by-id 1 returns the new name. -/
theorem c3_witness :
    TestController.Update ⟨[⟨1, some "a"⟩, ⟨2, some "b"⟩], 3⟩ 9 "z" =
      (404, ⟨[⟨1, some "a"⟩, ⟨2, some "b"⟩], 3⟩) ∧
    TestController.GetById
      (TestController.Update ⟨[⟨1, some "a"⟩, ⟨2, some "b"⟩], 3⟩ 1 "z").2 1 =
      (200, some ⟨1, some "z"⟩) :=
  ⟨(c3_update_semantics ⟨[⟨1, some "a"⟩, ⟨2, some "b"⟩], 3⟩ 9 "z").1 (by decide),
   ((c3_update_semantics ⟨[⟨1, some "a"⟩, ⟨2, some "b"⟩], 3⟩ 1 "z").2
      (by decide)).2.1⟩

/-- C4: get-by-id on an identifier with no stored record answers 404, and
after a successful delete (status 200), get-by-id on the deleted
identifier answers 404. -/
theorem c4_get_by_id_absent_404 (s : Store) (id : Int) :
    ((∀ r ∈ s.records, r.id ≠ id) → TestController.GetById s id = (404, none)) ∧
    ((TestController.Delete s id).1 = 200 →
      TestController.GetById (TestController.Delete s id).2 id = (404, none)) := by
  constructor
  · intro hno
    have hnone : s.records.find? (fun r => r.id == id) = none := by
      rw [List.find?_eq_none]
      intro r hr
      simp only [beq_iff_eq]
      exact hno r hr
    simp [TestController.GetById, hnone]
  · intro hdel
    by_cases hany : s.records.any (fun r => r.id == id) = true
    · have hrec : (TestController.Delete s id).2.records =
          s.records.filter (fun r => !(r.id == id)) := by
        simp [TestController.Delete, hany]
      have hnone : ((TestController.Delete s id).2.records).find?
          (fun r => r.id == id) = none := by
        rw [hrec, List.find?_eq_none]
        intro r hr
        have h2 := (List.mem_filter.mp hr).2
        simp only [Bool.not_eq_eq_eq_not, Bool.not_true] at h2
        simp [h2]
      simp [TestController.GetById, hnone]
    · exfalso
      have h404 : (TestController.Delete s id).1 = 404 := by
        simp [TestController.Delete, hany]
      rw [hdel] at h404
      exact absurd h404 (by decide)

/-- Witness for C4 on the concrete store `[(1, a)]`: identifier 99 is
absent, and after deleting identifier 1 it no longer resolves. -/
theorem c4_witness :
    TestController.GetById ⟨[⟨1, some "a"⟩], 2⟩ 99 = (404, none) ∧
    TestController.GetById (TestController.Delete ⟨[⟨1, some "a"⟩], 2⟩ 1).2 1 =
      (404, none) :=
  ⟨(c4_get_by_id_absent_404 ⟨[⟨1, some "a"⟩], 2⟩ 99).1 (by decide),
   (c4_get_by_id_absent_404 ⟨[⟨1, some "a"⟩], 2⟩ 1).2 (by decide)⟩

/-- C5: from any store in which every stored record has a non-null name,
every operation preserves that invariant: list-all and get-by-id expose
only non-null names, and the stores produced by create, update and delete
satisfy it again. -/
theorem c5_names_non_null_preserved (s : Store) (h : NamesNonNull s)
    (id : Int) (name : String) :
    (∀ r ∈ (TestController.GetAll s).2, r.name ≠ none) ∧
    (∀ r : TestProjects, (TestController.GetById s id).2 = some r →
      r.name ≠ none) ∧
    NamesNonNull (TestController.Create s name).2 ∧
    NamesNonNull (TestController.Update s id name).2 ∧
    NamesNonNull (TestController.Delete s id).2 := by
  refine ⟨h, ?_, ?_, ?_, ?_⟩
  · intro r hr
    unfold TestController.GetById at hr
    cases hfind : s.records.find? (fun x => x.id == id) with
    | none => rw [hfind] at hr; exact Option.noConfusion hr
    | some r0 =>
      rw [hfind] at hr
      simp only [Option.some.injEq] at hr
      subst hr
      exact h r0 (List.mem_of_find?_eq_some hfind)
  · by_cases hname : name = ""
    · intro r hr
      simp only [TestController.Create, hname, if_pos] at hr
      exact h r hr
    · intro r hr
      simp only [TestController.Create, hname, if_neg, ite_false] at hr
      rcases List.mem_append.mp hr with hr2 | hr2
      · exact h r hr2
      · rw [List.mem_singleton.mp hr2]
        simp
  · by_cases hany : s.records.any (fun r => r.id == id) = true
    · intro r hr
      simp only [TestController.Update, hany, if_pos] at hr
      obtain ⟨x, hx, hfx⟩ := List.mem_map.mp hr
      by_cases hxid : x.id = id
      · rw [← hfx]
        simp [hxid]
      · rw [← hfx, if_neg (by simpa using hxid)]
        exact h x hx
    · intro r hr
      rw [TestController.Update, if_neg hany] at hr
      exact h r hr
  · by_cases hany : s.records.any (fun r => r.id == id) = true
    · intro r hr
      simp only [TestController.Delete, hany, if_pos] at hr
      exact h r (List.mem_filter.mp hr).1
    · intro r hr
      rw [TestController.Delete, if_neg hany] at hr
      exact h r hr

/-- Witness for C5 on the concrete store `[(1, a)]`, applying every
operation with identifier 1 and name `z`. -/
theorem c5_witness :
    (∀ r ∈ (TestController.GetAll ⟨[⟨1, some "a"⟩], 2⟩).2, r.name ≠ none) ∧
    (∀ r : TestProjects,
      (TestController.GetById ⟨[⟨1, some "a"⟩], 2⟩ 1).2 = some r →
      r.name ≠ none) ∧
    NamesNonNull (TestController.Create ⟨[⟨1, some "a"⟩], 2⟩ "z").2 ∧
    NamesNonNull (TestController.Update ⟨[⟨1, some "a"⟩], 2⟩ 1 "z").2 ∧
    NamesNonNull (TestController.Delete ⟨[⟨1, some "a"⟩], 2⟩ 1).2 :=
  c5_names_non_null_preserved ⟨[⟨1, some "a"⟩], 2⟩ (by decide) 1 "z"
